import Mathlib

/-!
Shallow embedding of the reth-crawler peer-update orchestrator
(`bins/reth-crawler/src/crawler/listener/update_listener.rs`) and of the
read-only HTTP routes (`bins/api-server/src/peerdb/routes.rs`).

Machine integers (`u8`, `u64`, `H256`, `U64`) are modelled as `Nat`: none of
the modelled code paths perform arithmetic that can overflow (the failure
counter is only ever incremented from values below the threshold 5, and block
heights are far below `2^64`), so no explicit `% 2^w` is required.
Fallible calls (`handshake_p2p`, `handshake_eth`, provider queries) are
modelled as `Except`/`Option` values supplied as inputs to the per-candidate
task functions; async side effects (`ban_ip`, `save_peer`, `remove_peer`) are
reified as fields of an outcome record.
-/

namespace RethCrawler

/-- `P2P_FAILURE_THRESHOLD: u8 = 5` from `update_listener.rs`. -/
def P2P_FAILURE_THRESHOLD : Nat := 5

/-- `SYNCED_THRESHOLD: u64 = 100` from `update_listener.rs`. -/
def SYNCED_THRESHOLD : Nat := 100

/-! ## The LRU cache (`lru::LruCache<H256, U64>`)

The `lru` crate keeps entries in most-recently-used-first order.
`put(k, v)` inserts or updates `k` (moving it to the front) and, when the
capacity would be exceeded, evicts the least-recently-used entry (the back).
`contains(&k)` tests membership without touching recency order.
We model the cache as the MRU-first list of its `(key, value)` entries. -/

/-- Keys (block hashes) of an entry list, in MRU-first order. -/
def keysOf (l : List (Nat × Nat)) : List Nat := l.map Prod.fst

/-- One `LruCache::put` on the entry list: remove any entry with the same key,
push the new entry to the front, and truncate to the capacity (which drops the
least-recently-used entry when the cache was full and the key was fresh). -/
def putE (cap : Nat) (l : List (Nat × Nat)) (p : Nat × Nat) : List (Nat × Nat) :=
  List.take cap (p :: List.filter (fun e => decide (e.1 ≠ p.1)) l)

/-- `lru::LruCache<H256, U64>`: capacity plus MRU-first entry list. -/
structure LruCache where
  cap : Nat
  entries : List (Nat × Nat)
deriving DecidableEq, Repr

/-- `LruCache::new(cap)`. -/
def LruCache.new (cap : Nat) : LruCache := ⟨cap, []⟩

/-- `LruCache::put(k, v)`. -/
def LruCache.put (c : LruCache) (k v : Nat) : LruCache :=
  ⟨c.cap, putE c.cap c.entries (k, v)⟩

/-- `LruCache::contains(&k)` (does not change recency order). -/
def LruCache.contains (c : LruCache) (k : Nat) : Bool :=
  c.entries.any (fun e => decide (e.1 = k))

/-- `BlockHashNum`: the shared recency cache (the `Arc<RwLock<_>>` wrapper is
dropped; tasks take the lock only for the brief read/write shown in source). -/
structure BlockHashNum where
  blocks_hash_to_number : LruCache
deriving DecidableEq, Repr

/-- `impl Default for BlockHashNum`: a fresh cache of capacity
`SYNCED_THRESHOLD`. -/
def BlockHashNum.default : BlockHashNum :=
  ⟨LruCache.new SYNCED_THRESHOLD⟩

/-! ## Handshake data model -/

/-- The peer's hello message (`their_hello`), as used by the pipeline:
`protocol_version`, `client_version`, `capabilities` (already rendered to
strings, mirroring `cap.to_string()`). -/
structure HelloMessage where
  protocol_version : Nat
  client_version : String
  capabilities : List String
deriving DecidableEq, Repr

/-- The peer's status message (`their_status`): eth version, chain id, total
difficulty, best block hash, genesis hash. Numeric/hash fields are `Nat`. -/
structure Status where
  version : Nat
  chain : Nat
  total_difficulty : Nat
  blockhash : Nat
  genesis : Nat
deriving DecidableEq, Repr

/-- `reth_primitives::NodeRecord` (the discovered peer): id, IP address
(modelled as `Nat`), tcp and udp ports. -/
structure NodeRecord where
  id : Nat
  address : Nat
  tcp_port : Nat
  udp_port : Nat
deriving DecidableEq, Repr

/-- `NodeRecord`'s `Display` rendering (`peer.to_string()`), used for the
`enode_url` field. The exact format is irrelevant to every claim. -/
def NodeRecord.render (p : NodeRecord) : String :=
  "enode://" ++ toString p.id ++ "@" ++ toString p.address ++ ":" ++ toString p.tcp_port

/-- Result of `ipgeolocate::Locator::get`. -/
structure Location where
  country : String
  city : String
  isp : String
deriving DecidableEq, Repr

/-- `country` after the `if let Ok(loc)` block: the looked-up country on
success, `String::default()` on failure. -/
def geoCountry : Option Location → String
  | some loc => loc.country
  | none => ""

/-- `city` after the `if let Ok(loc)` block. -/
def geoCity : Option Location → String
  | some loc => loc.city
  | none => ""

/-- `isp` after the `if let Ok(loc)` block. -/
def geoIsp : Option Location → String
  | some loc => loc.isp
  | none => ""

/-- `reth_crawler_db::PeerData`, the persisted peer record. -/
structure PeerData where
  enode_url : String
  id : String
  address : String
  tcp_port : Nat
  client_version : String
  eth_version : Nat
  capabilities : List String
  total_difficulty : String
  chain : String
  best_block : String
  genesis_block_hash : String
  last_seen : String
  country : String
  city : String
  synced : Option Bool
  isp : String
deriving DecidableEq, Repr

/-! ## The failure ledger (`p2p_failures: HashMap<PeerId, u64>`) -/

/-- The shared failure map, modelled as an association list; `insert` shadows
by consing, `get` returns the first binding (or 0, matching
`*rlock.get(&peer.id).unwrap_or(&0)`). -/
abbrev Ledger := List (Nat × Nat)

/-- `*map.get(&id).unwrap_or(&0)`. -/
def Ledger.get (l : Ledger) (id : Nat) : Nat :=
  (List.lookup id l).getD 0

/-- `map.insert(id, v)`. -/
def Ledger.insert (l : Ledger) (id v : Nat) : Ledger :=
  (id, v) :: l

/-- `e.to_string().contains("Too many peers")`, split into list primitives.
`leadsWith n h` is true when `n` is an initial segment of `h`. -/
def leadsWith : List Char → List Char → Bool
  | [], _ => true
  | _ :: _, [] => false
  | a :: as, b :: bs => decide (a = b) && leadsWith as bs

/-- `hasSub n h` is true when `n` occurs contiguously inside `h`. -/
def hasSub (needle : List Char) : List Char → Bool
  | [] => leadsWith needle []
  | c :: t => leadsWith needle (c :: t) || hasSub needle t

/-- The distinguished "peer at capacity" test on a P2P handshake error:
`e.to_string().contains("Too many peers")`. -/
def isTooManyPeersErr (e : String) : Bool :=
  hasSub "Too many peers".toList e.toList

/-! ## Per-candidate task of `start_discv4` / `start_dnsdisc` -/

/-- Observable effects of one spawned per-candidate task: the failure map
after the task, whether `discv4.ban_ip(peer.address)` was called, and the
`PeerData` passed to `save_peer` (if any). -/
structure TaskOutcome where
  failures : Ledger
  banned : Bool
  saved : Option PeerData
deriving DecidableEq, Repr

/-- The body of the task spawned per `DiscoveryUpdate::Added /
DiscoveredAtCapacity` event in `start_discv4` (lines 107-235). The outcomes
of the two fallible handshakes, of the geolocation lookup and the `Utc::now`
timestamp are inputs; `state` and `p2p_failures` are the shared state. -/
def handlePeerDiscv4 (peer : NodeRecord) (p2p : Except String HelloMessage)
    (eth : Except String Status) (geo : Option Location) (now : String)
    (state : BlockHashNum) (p2p_failures : Ledger) : TaskOutcome :=
  let p2p_failure_count := Ledger.get p2p_failures peer.id
  match p2p with
  | Except.error e =>
    if isTooManyPeersErr e then
      -- "Skip counting p2p_failure for peer"
      { failures := p2p_failures, banned := false, saved := none }
    else
      let cnt := p2p_failure_count + 1
      if P2P_FAILURE_THRESHOLD ≤ cnt then
        -- ban and reset the count to 0
        { failures := Ledger.insert p2p_failures peer.id 0, banned := true, saved := none }
      else
        -- increment failure count
        { failures := Ledger.insert p2p_failures peer.id cnt, banned := false, saved := none }
  | Except.ok their_hello =>
    match eth with
    | Except.error _ =>
      -- failed ETH handshake: ban the peer permanently
      { failures := p2p_failures, banned := true, saved := none }
    | Except.ok their_status =>
      if their_hello.client_version.isEmpty then
        -- empty client_version: ban their IP
        { failures := p2p_failures, banned := true, saved := none }
      else
        let synced : Option Bool :=
          if state.blocks_hash_to_number.contains their_status.blockhash then some true
          else some false
        { failures := p2p_failures, banned := false,
          saved := some {
            enode_url := peer.render
            id := toString peer.id
            address := toString peer.address
            tcp_port := peer.tcp_port
            client_version := their_hello.client_version
            eth_version := their_status.version
            capabilities := their_hello.capabilities
            total_difficulty := toString their_status.total_difficulty
            chain := toString their_status.chain
            best_block := toString their_status.blockhash
            genesis_block_hash := toString their_status.genesis
            last_seen := now
            country := geoCountry geo
            city := geoCity geo
            synced := synced
            isp := geoIsp geo } }

/-- The body of the task spawned per `DnsNodeRecordUpdate` in `start_dnsdisc`
(lines 254-381); the source duplicates the `start_discv4` task body verbatim. -/
def handlePeerDnsdisc (peer : NodeRecord) (p2p : Except String HelloMessage)
    (eth : Except String Status) (geo : Option Location) (now : String)
    (state : BlockHashNum) (p2p_failures : Ledger) : TaskOutcome :=
  let p2p_failure_count := Ledger.get p2p_failures peer.id
  match p2p with
  | Except.error e =>
    if isTooManyPeersErr e then
      { failures := p2p_failures, banned := false, saved := none }
    else
      let cnt := p2p_failure_count + 1
      if P2P_FAILURE_THRESHOLD ≤ cnt then
        { failures := Ledger.insert p2p_failures peer.id 0, banned := true, saved := none }
      else
        { failures := Ledger.insert p2p_failures peer.id cnt, banned := false, saved := none }
  | Except.ok their_hello =>
    match eth with
    | Except.error _ =>
      { failures := p2p_failures, banned := true, saved := none }
    | Except.ok their_status =>
      if their_hello.client_version.isEmpty then
        { failures := p2p_failures, banned := true, saved := none }
      else
        let synced : Option Bool :=
          if state.blocks_hash_to_number.contains their_status.blockhash then some true
          else some false
        { failures := p2p_failures, banned := false,
          saved := some {
            enode_url := peer.render
            id := toString peer.id
            address := toString peer.address
            tcp_port := peer.tcp_port
            client_version := their_hello.client_version
            eth_version := their_status.version
            capabilities := their_hello.capabilities
            total_difficulty := toString their_status.total_difficulty
            chain := toString their_status.chain
            best_block := toString their_status.blockhash
            genesis_block_hash := toString their_status.genesis
            last_seen := now
            country := geoCountry geo
            city := geoCity geo
            synced := synced
            isp := geoIsp geo } }

/-! ## Per-session task of `start_network` -/

/-- `remote_addr: SocketAddr` of an established session. -/
structure RemoteAddr where
  ip : Nat
  port : Nat
deriving DecidableEq, Repr

/-- Observable effects of the task spawned per `SessionEstablished` event:
whether `peers_handle.remove_peer` was called, whether any discovery-layer ban
was issued (the source has no `ban_ip` call in this adapter — see the TODO
comment at lines 435-436), and the saved record. -/
structure NetTaskOutcome where
  removed_peer : Bool
  banned : Bool
  saved : Option PeerData
deriving DecidableEq, Repr

/-- The body of the task spawned per `NetworkEvent::SessionEstablished` in
`start_network` (lines 408-475). The session already carries the hello/status
data, so there are no fallible handshakes here; on an empty `client_version`
the source only logs and returns (banning is a TODO), it never calls any ban
primitive. -/
def handleSessionEstablished (peer_id : Nat) (remote_addr : RemoteAddr)
    (client_version : String) (capabilities : List String) (status : Status)
    (version : Nat) (geo : Option Location) (now : String)
    (state : BlockHashNum) : NetTaskOutcome :=
  -- `peer_handle.remove_peer(peer_id)` happens first, unconditionally
  let enode_url := (NodeRecord.mk peer_id remote_addr.ip remote_addr.port remote_addr.port).render
  if client_version.isEmpty then
    { removed_peer := true, banned := false, saved := none }
  else
    let synced : Option Bool :=
      if state.blocks_hash_to_number.contains status.blockhash then some true
      else some false
    { removed_peer := true, banned := false,
      saved := some {
        enode_url := enode_url
        id := toString peer_id
        tcp_port := remote_addr.port
        address := toString remote_addr.ip
        client_version := client_version
        capabilities := capabilities
        eth_version := version
        chain := toString status.chain
        total_difficulty := toString status.total_difficulty
        best_block := toString status.blockhash
        genesis_block_hash := toString status.genesis
        last_seen := now
        country := geoCountry geo
        city := geoCity geo
        synced := synced
        isp := geoIsp geo } }

/-! ## Chain-height tracker: `start_state` and `initialize_state` -/

/-- A (non-pending) block as consumed by the tracker: hash and number. -/
structure Block where
  hash : Nat
  number : Nat
deriving DecidableEq, Repr

/-- The loop body of `start_state`: each block from the subscription is `put`
into the recency cache; `applyNewBlocks` is the loop run over a finite prefix
of the subscription stream. -/
def applyNewBlocks (c : LruCache) (bs : List Block) : LruCache :=
  bs.foldl (fun c b => c.put b.hash b.number) c

/-- The ethers provider as consumed by `initialize_state`:
`get_block_number()` and `get_block(h)` (each may fail; the
`expect("it's not a pending block")` unwraps are outside the model since
historical canonical blocks are never pending). -/
structure Provider where
  latest : Except String Nat
  block : Nat → Except String Block

/-- The backfill loop of `initialize_state`: walk the heights in order,
propagating the first provider error (`?`), `put`ting each fetched block. -/
def backfillGo (p : Provider) (state : LruCache) : List Nat → Except String LruCache
  | [] => Except.ok state
  | h :: rest =>
    match p.block h with
    | Except.error e => Except.error e
    | Except.ok b => backfillGo p (state.put b.hash b.number) rest

/-- `initialize_state` (lines 509-532): fetch the latest block number, then
loop over `(last - SYNCED_THRESHOLD)..=last` fetching and inserting each
block; any provider error propagates to the caller via `?`. -/
def initialize_state (p : Provider) (state : LruCache) : Except String LruCache :=
  match p.latest with
  | Except.error e => Except.error e
  | Except.ok last =>
    backfillGo p state
      (List.range' (last - SYNCED_THRESHOLD) (last + 1 - (last - SYNCED_THRESHOLD)))

/-! ## The api-server routes (`bins/api-server/src/peerdb/routes.rs`) -/

/-- Modelled from the spec: the persistence-layer query contract
`all_peers(limit) -> [PeerRecord]` (§6) — the `reth_crawler_db` store is not
under `src/`. A store holds a list of records and `all_peers` returns at most
`limit` of them. -/
structure PeerStore where
  peers : List PeerData

/-- Modelled from the spec: `all_peers(limit)` returns at most `limit`
records (all of them when no limit is given). -/
def PeerStore.all_peers (s : PeerStore) (limit : Option Nat) : List PeerData :=
  match limit with
  | some n => s.peers.take n
  | none => s.peers

/-- `reth_crawler_db::types::ClientData`. -/
structure ClientData where
  client_version : String
deriving DecidableEq, Repr

/-- `get_nodes`: `Json(store.all_peers(Some(50)).await.unwrap())`. -/
def get_nodes (store : PeerStore) : List PeerData :=
  store.all_peers (some 50)

/-- `get_clients`: `all_peers(Some(50))` mapped to `ClientData`. -/
def get_clients (store : PeerStore) : List ClientData :=
  (store.all_peers (some 50)).map (fun peer => { client_version := peer.client_version })

/-! ## Concrete sample inputs used to instantiate the theorems -/

/-- A sample discovered peer. -/
def peerW : NodeRecord := ⟨7, 1234, 30303, 30303⟩

/-- A sample hello with a non-empty client version. -/
def helloW : HelloMessage := ⟨5, "Geth/v1.13.0", ["eth/68"]⟩

/-- A sample hello with an empty client version. -/
def helloEmptyW : HelloMessage := ⟨5, "", ["eth/68"]⟩

/-- A sample status whose best block is hash 77. -/
def statusW : Status := ⟨68, 1, 100000, 77, 999⟩

/-- A sample recency-cache state containing hash 77 at height 5. -/
def stateW : BlockHashNum := ⟨⟨100, [(77, 5)]⟩⟩

/-- First 99 entries of a full sample cache, most-recent first. -/
def entriesYoungW : List (Nat × Nat) := (List.range 99).map (fun i => (i, i))

/-- A full (100-entry) sample cache whose least-recently-used entry is
`(99, 99)`. -/
def cacheFullW : LruCache := ⟨100, entriesYoungW ++ [(99, 99)]⟩

/-- A sample chain: the block at height `h` has hash `h + 1000`. -/
def blkW : Nat → Block := fun h => ⟨h + 1000, h⟩

/-- A provider at height 100 that serves every block of `blkW`. -/
def pW : Provider := ⟨Except.ok 100, fun h => Except.ok (blkW h)⟩

/-- A provider whose height query fails. -/
def pErrW : Provider := ⟨Except.error "ws closed", fun h => Except.ok (blkW h)⟩

/-- A provider at height 100 whose query for block 0 fails. -/
def pBadW : Provider :=
  ⟨Except.ok 100, fun h => if h = 0 then Except.error "missing block" else Except.ok (blkW h)⟩

/-- The cache produced by one backfill run of `pW` from a cold cache. -/
def c1W : LruCache :=
  ((initialize_state pW BlockHashNum.default.blocks_hash_to_number).toOption).getD
    (LruCache.new 0)

/-- The cache produced by a second backfill run of `pW` over `c1W`. -/
def c2W : LruCache :=
  ((initialize_state pW c1W).toOption).getD (LruCache.new 0)

/-! ## Helper lemmas about the LRU entry-list operations -/

theorem putE_length_le (cap : Nat) (l : List (Nat × Nat)) (p : Nat × Nat) :
    (putE cap l p).length ≤ cap := by
  simp only [putE, List.length_take]
  exact min_le_left _ _

theorem foldl_putE_length (cap : Nat) (ps : List (Nat × Nat)) :
    ∀ l : List (Nat × Nat), l.length ≤ cap → (List.foldl (putE cap) l ps).length ≤ cap := by
  induction ps with
  | nil => intro l h; simpa using h
  | cons p ps ih => intro l _; exact ih (putE cap l p) (putE_length_le cap l p)

theorem keysOf_nodup_putE (cap : Nat) (l : List (Nat × Nat)) (p : Nat × Nat)
    (h : (keysOf l).Nodup) : (keysOf (putE cap l p)).Nodup := by
  have hX : (keysOf (p :: List.filter (fun e => decide (e.1 ≠ p.1)) l)).Nodup := by
    simp only [keysOf, List.map_cons, List.nodup_cons]
    constructor
    · intro hmem
      rcases List.mem_map.mp hmem with ⟨e, he, heq⟩
      have hne := (List.mem_filter.mp he).2
      simp only [decide_eq_true_eq] at hne
      exact hne heq
    · exact List.Nodup.sublist ((List.filter_sublist l).map Prod.fst) h
  exact List.Nodup.sublist ((List.take_sublist cap _).map Prod.fst) hX

theorem take_filter_take (q : Nat × Nat → Bool) :
    ∀ (B : List (Nat × Nat)) (n m : Nat),
      m + (B.filter (fun e => !(q e))).length ≤ n →
      List.take m (List.filter q (List.take n B)) = List.take m (List.filter q B) := by
  intro B
  induction B with
  | nil => intro n m _; simp
  | cons b B ih =>
    intro n m hm
    cases n with
    | zero =>
      have hm0 : m = 0 := Nat.le_zero.mp (Nat.le_trans (Nat.le_add_right _ _) hm)
      subst hm0; simp
    | succ n =>
      rw [List.take_succ_cons]
      cases hq : q b with
      | true =>
        rw [List.filter_cons_of_pos hq, List.filter_cons_of_pos hq]
        cases m with
        | zero => simp
        | succ m =>
          rw [List.take_succ_cons, List.take_succ_cons]
          congr 1
          apply ih n m
          have hlen : (List.filter (fun e => !(q e)) (b :: B)).length
              = (List.filter (fun e => !(q e)) B).length := by
            rw [List.filter_cons_of_neg (by simp [hq])]
          omega
      | false =>
        rw [List.filter_cons_of_neg (by simp [hq]), List.filter_cons_of_neg (by simp [hq])]
        apply ih n m
        have hlen : (List.filter (fun e => !(q e)) (b :: B)).length
            = (List.filter (fun e => !(q e)) B).length + 1 := by
          rw [List.filter_cons_of_pos (by simp [hq])]
          simp
        omega

theorem take_append_filter (n : Nat) (A B : List (Nat × Nat)) (q : Nat × Nat → Bool)
    (h : (B.filter (fun e => !(q e))).length ≤ A.length) :
    List.take n (A ++ List.filter q (List.take n B))
      = List.take n (A ++ List.filter q B) := by
  rw [List.take_append_eq_append_take, List.take_append_eq_append_take]
  congr 1
  rcases le_or_lt n A.length with hn | hn
  · have hz : n - A.length = 0 := Nat.sub_eq_zero_of_le hn
    simp [hz]
  · apply take_filter_take
    omega

theorem filter_filter_congr {α : Type} (p q r : α → Bool) (h : ∀ a, (q a && p a) = r a) :
    ∀ l : List α, List.filter p (List.filter q l) = List.filter r l := by
  intro l
  induction l with
  | nil => simp
  | cons a l ih =>
    simp only [List.filter_cons, ← h a]
    cases hq : q a <;> cases hp : p a <;> simp [List.filter_cons, hq, hp, ih]

theorem filter_mem_length_le (B : List (Nat × Nat)) (S : List Nat)
    (hB : (keysOf B).Nodup) :
    (B.filter (fun e => decide (e.1 ∈ S))).length ≤ S.length := by
  have hsub : keysOf (B.filter (fun e => decide (e.1 ∈ S))) ⊆ S := by
    intro x hx
    rcases List.mem_map.mp hx with ⟨e, he, rfl⟩
    have hmem := (List.mem_filter.mp he).2
    simpa using hmem
  have hnd : (keysOf (B.filter (fun e => decide (e.1 ∈ S)))).Nodup :=
    List.Nodup.sublist ((List.filter_sublist B).map Prod.fst) hB
  have hle := (List.Nodup.subperm hnd hsub).length_le
  simpa [keysOf] using hle

/-- Structure of a fold of `put`s over an entry list: with pairwise-distinct
inserted keys, the result is the reverse of the inserted pairs, followed by
the surviving old entries whose keys were not re-inserted, truncated to the
capacity. -/
theorem foldl_putE_eq (cap : Nat) :
    ∀ (ps l : List (Nat × Nat)), (keysOf ps).Nodup → (keysOf l).Nodup → l.length ≤ cap →
      List.foldl (putE cap) l ps
        = List.take cap (ps.reverse ++ List.filter (fun e => decide (e.1 ∉ keysOf ps)) l) := by
  intro ps
  induction ps with
  | nil =>
    intro l _ _ hlen
    have hf : List.filter (fun e => decide ((e : Nat × Nat).1 ∉ keysOf ([] : List (Nat × Nat)))) l = l :=
      List.filter_eq_self.mpr (by intro a _; simp [keysOf])
    rw [List.foldl_nil, List.reverse_nil, List.nil_append, hf, List.take_of_length_le hlen]
  | cons p tl ih =>
    intro l hps hl hlen
    have hptl : p.1 ∉ keysOf tl := by
      simp only [keysOf, List.map_cons, List.nodup_cons] at hps
      exact hps.1
    have htl : (keysOf tl).Nodup := by
      simp only [keysOf, List.map_cons, List.nodup_cons] at hps
      exact hps.2
    have hstep : List.foldl (putE cap) l (p :: tl) = List.foldl (putE cap) (putE cap l p) tl := rfl
    rw [hstep, ih (putE cap l p) htl (keysOf_nodup_putE cap l p hl) (putE_length_le cap l p)]
    have hput : putE cap l p
        = List.take cap (p :: List.filter (fun e => decide (e.1 ≠ p.1)) l) := rfl
    rw [hput]
    have hFnd : (keysOf (List.filter (fun e => decide (e.1 ≠ p.1)) l)).Nodup :=
      List.Nodup.sublist ((List.filter_sublist l).map Prod.fst) hl
    have hbound : ((p :: List.filter (fun e => decide (e.1 ≠ p.1)) l).filter
        (fun e => !(decide (e.1 ∉ keysOf tl)))).length ≤ tl.reverse.length := by
      have h1 : (p :: List.filter (fun e => decide (e.1 ≠ p.1)) l).filter
            (fun e => !(decide (e.1 ∉ keysOf tl)))
          = (p :: List.filter (fun e => decide (e.1 ≠ p.1)) l).filter
            (fun e => decide (e.1 ∈ keysOf tl)) := by
        apply List.filter_congr
        intro a _
        by_cases hmem : a.1 ∈ keysOf tl <;> simp [hmem]
      rw [h1, List.filter_cons_of_neg (by simpa using hptl)]
      calc ((List.filter (fun e => decide (e.1 ≠ p.1)) l).filter
              (fun e => decide (e.1 ∈ keysOf tl))).length
          ≤ (keysOf tl).length := filter_mem_length_le _ (keysOf tl) hFnd
        _ = tl.length := by simp [keysOf]
        _ = tl.reverse.length := (List.length_reverse tl).symm
    rw [take_append_filter cap tl.reverse _ (fun e => decide (e.1 ∉ keysOf tl)) hbound]
    rw [List.filter_cons_of_pos (by simpa using hptl)]
    have hff : List.filter (fun e => decide (e.1 ∉ keysOf tl))
          (List.filter (fun e => decide (e.1 ≠ p.1)) l)
        = List.filter (fun e => decide (e.1 ∉ keysOf (p :: tl))) l := by
      apply filter_filter_congr
      intro a
      by_cases h1 : a.1 = p.1 <;> by_cases h2 : a.1 ∈ keysOf tl <;>
        simp [keysOf, h1, h2]
    rw [hff, List.reverse_cons, List.append_assoc, List.singleton_append]

/-- Folding `put`s of pairwise-distinct keys into an empty cache keeps the
most recent `cap` of them, newest first. -/
theorem foldl_putE_nil_eq (cap : Nat) (ps : List (Nat × Nat)) (hps : (keysOf ps).Nodup) :
    List.foldl (putE cap) [] ps = List.take cap ps.reverse := by
  have h := foldl_putE_eq cap ps [] hps (by simp [keysOf]) (by simp)
  simpa using h

/-- Re-folding the same pairwise-distinct puts over the resulting cache
reproduces the cache exactly. -/
theorem foldl_putE_twice (cap : Nat) (ps : List (Nat × Nat)) (hps : (keysOf ps).Nodup) :
    List.foldl (putE cap) (List.foldl (putE cap) [] ps) ps
      = List.foldl (putE cap) [] ps := by
  rw [foldl_putE_nil_eq cap ps hps]
  have h1 : (keysOf (List.take cap ps.reverse)).Nodup := by
    apply List.Nodup.sublist ((List.take_sublist cap ps.reverse).map Prod.fst)
    simpa [keysOf, List.map_reverse] using (List.nodup_reverse.mpr hps)
  have h2 : (List.take cap ps.reverse).length ≤ cap := by
    simp only [List.length_take]
    exact min_le_left _ _
  rw [foldl_putE_eq cap ps (List.take cap ps.reverse) hps h1 h2]
  have h3 : List.filter (fun e => decide (e.1 ∉ keysOf ps)) (List.take cap ps.reverse) = [] := by
    apply List.filter_eq_nil_iff.mpr
    intro e he
    have hmem : e ∈ ps := List.mem_reverse.mp ((List.take_sublist cap ps.reverse).subset he)
    simp only [decide_eq_true_eq, Decidable.not_not]
    exact List.mem_map_of_mem Prod.fst hmem
  rw [h3, List.append_nil]

/-! ## Lifting the list lemmas to `LruCache`, `applyNewBlocks`, `backfillGo` -/

theorem foldl_put_pairs : ∀ (qs : List (Nat × Nat)) (c0 : LruCache),
    List.foldl (fun c p => LruCache.put c p.1 p.2) c0 qs
      = ⟨c0.cap, List.foldl (putE c0.cap) c0.entries qs⟩
  | [], _ => rfl
  | q :: qs, c0 => by
    rw [List.foldl_cons, List.foldl_cons]
    exact foldl_put_pairs qs (c0.put q.1 q.2)

theorem applyNewBlocks_entries (c0 : LruCache) (bs : List Block) :
    applyNewBlocks c0 bs
      = ⟨c0.cap, List.foldl (putE c0.cap) c0.entries (bs.map (fun b => (b.hash, b.number)))⟩ := by
  rw [applyNewBlocks, ← foldl_put_pairs, List.foldl_map]

theorem backfillGo_ok (p : Provider) (blk : Nat → Block)
    (hb : ∀ h, p.block h = Except.ok (blk h)) :
    ∀ (hs : List Nat) (c : LruCache),
      backfillGo p c hs
        = Except.ok (List.foldl (fun c h => LruCache.put c (blk h).hash (blk h).number) c hs)
  | [], _ => rfl
  | h :: hs, c => by
    simp only [backfillGo, hb h, List.foldl_cons]
    exact backfillGo_ok p blk hb hs (c.put (blk h).hash (blk h).number)

theorem backfillGo_err (p : Provider) (e : String) (hf : Nat) (r2 : List Nat)
    (he : p.block hf = Except.error e) :
    ∀ (r1 : List Nat) (c : LruCache), (∀ h ∈ r1, ∃ b, p.block h = Except.ok b) →
      backfillGo p c (r1 ++ hf :: r2) = Except.error e
  | [], _, _ => by simp only [List.nil_append, backfillGo, he]
  | h :: r1, c, hok => by
    obtain ⟨b, hb⟩ := hok h (by simp)
    simp only [List.cons_append, backfillGo, hb]
    exact backfillGo_err p e hf r2 he r1 _ (fun h' hmem => hok h' (by simp [hmem]))

/-! ## One-step characterizations of the per-candidate tasks -/

theorem handlePeerDiscv4_err (peer : NodeRecord) (e : String) (eth : Except String Status)
    (geo : Option Location) (now : String) (state : BlockHashNum) (led : Ledger) :
    handlePeerDiscv4 peer (Except.error e) eth geo now state led
      = if isTooManyPeersErr e then { failures := led, banned := false, saved := none }
        else if P2P_FAILURE_THRESHOLD ≤ Ledger.get led peer.id + 1 then
          { failures := Ledger.insert led peer.id 0, banned := true, saved := none }
        else
          { failures := Ledger.insert led peer.id (Ledger.get led peer.id + 1),
            banned := false, saved := none } := rfl

theorem handlePeerDiscv4_ethErr (peer : NodeRecord) (hello : HelloMessage) (e : String)
    (geo : Option Location) (now : String) (state : BlockHashNum) (led : Ledger) :
    handlePeerDiscv4 peer (Except.ok hello) (Except.error e) geo now state led
      = { failures := led, banned := true, saved := none } := rfl

theorem handlePeerDiscv4_ok (peer : NodeRecord) (hello : HelloMessage) (status : Status)
    (geo : Option Location) (now : String) (state : BlockHashNum) (led : Ledger) :
    handlePeerDiscv4 peer (Except.ok hello) (Except.ok status) geo now state led
      = if hello.client_version.isEmpty then { failures := led, banned := true, saved := none }
        else
          { failures := led, banned := false,
            saved := some {
              enode_url := peer.render
              id := toString peer.id
              address := toString peer.address
              tcp_port := peer.tcp_port
              client_version := hello.client_version
              eth_version := status.version
              capabilities := hello.capabilities
              total_difficulty := toString status.total_difficulty
              chain := toString status.chain
              best_block := toString status.blockhash
              genesis_block_hash := toString status.genesis
              last_seen := now
              country := geoCountry geo
              city := geoCity geo
              synced := if state.blocks_hash_to_number.contains status.blockhash then some true
                        else some false
              isp := geoIsp geo } } := rfl

theorem handlePeerDnsdisc_eq (peer : NodeRecord) (p2p : Except String HelloMessage)
    (eth : Except String Status) (geo : Option Location) (now : String)
    (state : BlockHashNum) (led : Ledger) :
    handlePeerDnsdisc peer p2p eth geo now state led
      = handlePeerDiscv4 peer p2p eth geo now state led := by
  cases p2p <;> cases eth <;> rfl

theorem handleSessionEstablished_eq (peer_id : Nat) (remote_addr : RemoteAddr)
    (client_version : String) (capabilities : List String) (status : Status)
    (version : Nat) (geo : Option Location) (now : String) (state : BlockHashNum) :
    handleSessionEstablished peer_id remote_addr client_version capabilities status
        version geo now state
      = if client_version.isEmpty then { removed_peer := true, banned := false, saved := none }
        else
          { removed_peer := true, banned := false,
            saved := some {
              enode_url := (NodeRecord.mk peer_id remote_addr.ip remote_addr.port
                remote_addr.port).render
              id := toString peer_id
              tcp_port := remote_addr.port
              address := toString remote_addr.ip
              client_version := client_version
              capabilities := capabilities
              eth_version := version
              chain := toString status.chain
              total_difficulty := toString status.total_difficulty
              best_block := toString status.blockhash
              genesis_block_hash := toString status.genesis
              last_seen := now
              country := geoCountry geo
              city := geoCity geo
              synced := if state.blocks_hash_to_number.contains status.blockhash then some true
                        else some false
              isp := geoIsp geo } } := rfl

theorem Ledger.get_insert_self (l : Ledger) (id v : Nat) :
    Ledger.get (Ledger.insert l id v) id = v := by
  simp [Ledger.get, Ledger.insert, List.lookup]

/-! ## Claim theorems -/

/-- C2: on a non-capacity layer-1 handshake failure with recorded failure
count `n`, the candidate is never persisted; if `n + 1 ≥ 5` a ban is issued
and the stored count for the peer becomes exactly 0; otherwise no ban is
issued and the stored count becomes exactly `n + 1`. -/
theorem claim2_layer1_failure_accrual (peer : NodeRecord) (e : String)
    (eth : Except String Status) (geo : Option Location) (now : String)
    (state : BlockHashNum) (led : Ledger)
    (he : isTooManyPeersErr e = false) :
    (handlePeerDiscv4 peer (Except.error e) eth geo now state led).saved = none ∧
    (P2P_FAILURE_THRESHOLD ≤ Ledger.get led peer.id + 1 →
      (handlePeerDiscv4 peer (Except.error e) eth geo now state led).banned = true ∧
      Ledger.get (handlePeerDiscv4 peer (Except.error e) eth geo now state led).failures
        peer.id = 0) ∧
    (Ledger.get led peer.id + 1 < P2P_FAILURE_THRESHOLD →
      (handlePeerDiscv4 peer (Except.error e) eth geo now state led).banned = false ∧
      Ledger.get (handlePeerDiscv4 peer (Except.error e) eth geo now state led).failures
        peer.id = Ledger.get led peer.id + 1) := by
  rw [handlePeerDiscv4_err, he, if_neg Bool.false_ne_true]
  by_cases hc : P2P_FAILURE_THRESHOLD ≤ Ledger.get led peer.id + 1
  · rw [if_pos hc]
    exact ⟨rfl, fun _ => ⟨rfl, Ledger.get_insert_self _ _ _⟩, fun hlt => absurd hc (by omega)⟩
  · rw [if_neg hc]
    exact ⟨rfl, fun hge => absurd hge hc, fun _ => ⟨rfl, Ledger.get_insert_self _ _ _⟩⟩

/-- C2 witness: with a prior count of 4 for peer id 7, a non-capacity layer-1
failure bans and resets the stored count to 0; with a prior count of 1 it
stores 2 and does not ban. -/
theorem claim2_witness :
    isTooManyPeersErr "Connection refused" = false ∧
    ((handlePeerDiscv4 peerW (Except.error "Connection refused") (Except.error "x") none "t"
        stateW [(7, 4)]).banned = true ∧
      Ledger.get (handlePeerDiscv4 peerW (Except.error "Connection refused") (Except.error "x")
        none "t" stateW [(7, 4)]).failures peerW.id = 0) ∧
    ((handlePeerDiscv4 peerW (Except.error "Connection refused") (Except.error "x") none "t"
        stateW [(7, 1)]).banned = false ∧
      Ledger.get (handlePeerDiscv4 peerW (Except.error "Connection refused") (Except.error "x")
        none "t" stateW [(7, 1)]).failures peerW.id = Ledger.get [(7, 1)] peerW.id + 1) := by
  refine ⟨by decide, ?_, ?_⟩
  · exact (claim2_layer1_failure_accrual peerW "Connection refused" (Except.error "x") none "t"
      stateW [(7, 4)] (by decide)).2.1 (by decide)
  · exact (claim2_layer1_failure_accrual peerW "Connection refused" (Except.error "x") none "t"
      stateW [(7, 1)] (by decide)).2.2 (by decide)

/-- C3: when layer 1 succeeds but the layer-2 (status) handshake fails, a
permanent address ban is issued immediately, nothing is persisted, and the
failure ledger is unchanged — uniformly in the ledger contents (every outcome
component other than the pass-through ledger is a constant, so the ledger has
no effect on this path). -/
theorem claim3_layer2_failure_ban (peer : NodeRecord) (hello : HelloMessage) (e : String)
    (geo : Option Location) (now : String) (state : BlockHashNum) (led : Ledger) :
    (handlePeerDiscv4 peer (Except.ok hello) (Except.error e) geo now state led).banned = true ∧
    (handlePeerDiscv4 peer (Except.ok hello) (Except.error e) geo now state led).saved = none ∧
    (handlePeerDiscv4 peer (Except.ok hello) (Except.error e) geo now state led).failures
      = led := by
  rw [handlePeerDiscv4_ethErr]
  exact ⟨rfl, rfl, rfl⟩

/-- C4: a layer-1 failure carrying the "Too many peers" (capacity) condition
leaves the ledger untouched, issues no ban, and persists nothing. -/
theorem claim4_capacity_failure (peer : NodeRecord) (e : String) (eth : Except String Status)
    (geo : Option Location) (now : String) (state : BlockHashNum) (led : Ledger)
    (he : isTooManyPeersErr e = true) :
    (handlePeerDiscv4 peer (Except.error e) eth geo now state led).failures = led ∧
    (handlePeerDiscv4 peer (Except.error e) eth geo now state led).banned = false ∧
    (handlePeerDiscv4 peer (Except.error e) eth geo now state led).saved = none := by
  rw [handlePeerDiscv4_err, he, if_pos rfl]
  exact ⟨rfl, rfl, rfl⟩

/-- C4 witness: a concrete capacity failure against a peer with prior count 3
leaves the ledger exactly as it was. -/
theorem claim4_witness :
    isTooManyPeersErr "p2p error: Too many peers" = true ∧
    (handlePeerDiscv4 peerW (Except.error "p2p error: Too many peers") (Except.error "x") none
      "t" stateW [(7, 3)]).failures = [(7, 3)] ∧
    (handlePeerDiscv4 peerW (Except.error "p2p error: Too many peers") (Except.error "x") none
      "t" stateW [(7, 3)]).banned = false := by
  have T := claim4_capacity_failure peerW "p2p error: Too many peers" (Except.error "x") none
    "t" stateW [(7, 3)] (by decide)
  exact ⟨by decide, T.1, T.2.1⟩

/-- C1 (amended): after a successful layer-2 handshake with an empty hello
client-version, no `PeerData` is produced in any adapter; the discv4 and
dnsdisc adapters additionally issue a permanent address ban, while the
network-session adapter issues no ban (the source only logs and returns
there, leaving banning as a TODO). -/
theorem claim1_empty_client_version (peer : NodeRecord) (hello : HelloMessage)
    (status : Status) (geo : Option Location) (now : String) (state : BlockHashNum)
    (led : Ledger) (peer2 : NodeRecord) (hello2 : HelloMessage) (status2 : Status)
    (geo2 : Option Location) (now2 : String) (state2 : BlockHashNum) (led2 : Ledger)
    (pid : Nat) (addr : RemoteAddr) (cv : String) (caps : List String) (status3 : Status)
    (ver : Nat) (geo3 : Option Location) (now3 : String) (state3 : BlockHashNum)
    (h1 : hello.client_version.isEmpty = true)
    (h2 : hello2.client_version.isEmpty = true)
    (h3 : cv.isEmpty = true) :
    ((handlePeerDiscv4 peer (Except.ok hello) (Except.ok status) geo now state led).banned
        = true ∧
      (handlePeerDiscv4 peer (Except.ok hello) (Except.ok status) geo now state led).saved
        = none) ∧
    ((handlePeerDnsdisc peer2 (Except.ok hello2) (Except.ok status2) geo2 now2 state2
        led2).banned = true ∧
      (handlePeerDnsdisc peer2 (Except.ok hello2) (Except.ok status2) geo2 now2 state2
        led2).saved = none) ∧
    ((handleSessionEstablished pid addr cv caps status3 ver geo3 now3 state3).banned
        = false ∧
      (handleSessionEstablished pid addr cv caps status3 ver geo3 now3 state3).saved
        = none) := by
  rw [handlePeerDnsdisc_eq, handlePeerDiscv4_ok, handlePeerDiscv4_ok,
    handleSessionEstablished_eq, h1, h2, h3, if_pos rfl, if_pos rfl, if_pos rfl]
  exact ⟨⟨rfl, rfl⟩, ⟨rfl, rfl⟩, ⟨rfl, rfl⟩⟩

/-- C1 counterexample: the claim asserts a ban is issued "in every adapter
path, including the network-session adapter"; at this concrete network-session
input the layer-2 data is present, the client-version is empty, and yet no ban
is issued (`banned = false`). -/
theorem claim1_counterexample :
    ("" : String).isEmpty = true ∧
    (handleSessionEstablished 7 ⟨1234, 30303⟩ "" ["eth/68"] statusW 68 none "t"
      stateW).banned = false ∧
    (handleSessionEstablished 7 ⟨1234, 30303⟩ "" ["eth/68"] statusW 68 none "t"
      stateW).saved = none :=
  ⟨rfl, rfl, rfl⟩

/-- C1 witness: concrete empty-client-version runs of all three adapters:
ban and no record in discv4 and dnsdisc, no ban and no record in the
network-session adapter. -/
theorem claim1_witness :
    (handlePeerDiscv4 peerW (Except.ok helloEmptyW) (Except.ok statusW) none "t" stateW
      []).banned = true ∧
    (handlePeerDnsdisc peerW (Except.ok helloEmptyW) (Except.ok statusW) none "t" stateW
      []).saved = none ∧
    (handleSessionEstablished 8 ⟨99, 30303⟩ "" [] statusW 68 none "t" stateW).banned
      = false := by
  have T := claim1_empty_client_version peerW helloEmptyW statusW none "t" stateW []
    peerW helloEmptyW statusW none "t" stateW [] 8 ⟨99, 30303⟩ "" [] statusW 68 none "t"
    stateW rfl rfl rfl
  exact ⟨T.1.1, T.2.1.2, T.2.2.1⟩

/-- C6: when both handshake layers succeed and the client-version is
non-empty, a record is persisted and its `synced` flag is `some true` iff the
reported best-block hash is currently in the recency cache, `some false` iff
it is not. -/
theorem claim6_synced_iff (peer : NodeRecord) (hello : HelloMessage) (status : Status)
    (geo : Option Location) (now : String) (state : BlockHashNum) (led : Ledger)
    (hcv : hello.client_version.isEmpty = false) :
    (handlePeerDiscv4 peer (Except.ok hello) (Except.ok status) geo now state
        led).saved.isSome = true ∧
    ∀ r, (handlePeerDiscv4 peer (Except.ok hello) (Except.ok status) geo now state
        led).saved = some r →
      (r.synced = some true ↔ state.blocks_hash_to_number.contains status.blockhash = true) ∧
      (r.synced = some false ↔
        state.blocks_hash_to_number.contains status.blockhash = false) := by
  rw [handlePeerDiscv4_ok, hcv, if_neg Bool.false_ne_true]
  refine ⟨rfl, ?_⟩
  intro r hr
  rw [Option.some.injEq] at hr
  subst hr
  cases hcont : state.blocks_hash_to_number.contains status.blockhash <;> simp [hcont]

/-- C6 witness: a concrete fully-successful handshake whose best block is in
the cache yields a persisted record with `synced = some true`. -/
theorem claim6_witness :
    helloW.client_version.isEmpty = false ∧
    (handlePeerDiscv4 peerW (Except.ok helloW) (Except.ok statusW) none "t" stateW
      []).saved.isSome = true := by
  exact ⟨by decide, (claim6_synced_iff peerW helloW statusW none "t" stateW [] (by decide)).1⟩

/-- C9: every record any of the three adapters hands to `save_peer` carries a
definite `synced` flag (`some true` or `some false`, never `none`). -/
theorem claim9_synced_definite (peer : NodeRecord) (p2p : Except String HelloMessage)
    (eth : Except String Status) (geo : Option Location) (now : String)
    (state : BlockHashNum) (led : Ledger) (peer2 : NodeRecord)
    (p2p2 : Except String HelloMessage) (eth2 : Except String Status)
    (geo2 : Option Location) (now2 : String) (state2 : BlockHashNum) (led2 : Ledger)
    (pid : Nat) (addr : RemoteAddr) (cv : String) (caps : List String) (status3 : Status)
    (ver : Nat) (geo3 : Option Location) (now3 : String) (state3 : BlockHashNum) :
    ((handlePeerDiscv4 peer p2p eth geo now state led).saved.all
      (fun r => r.synced.isSome)) = true ∧
    ((handlePeerDnsdisc peer2 p2p2 eth2 geo2 now2 state2 led2).saved.all
      (fun r => r.synced.isSome)) = true ∧
    ((handleSessionEstablished pid addr cv caps status3 ver geo3 now3 state3).saved.all
      (fun r => r.synced.isSome)) = true := by
  refine ⟨?_, ?_, ?_⟩
  · cases p2p with
    | error e =>
      rw [handlePeerDiscv4_err]
      split
      · rfl
      · split <;> rfl
    | ok hello =>
      cases eth with
      | error e2 =>
        rw [handlePeerDiscv4_ethErr]
        rfl
      | ok status =>
        rw [handlePeerDiscv4_ok]
        split
        · rfl
        · cases hcont : state.blocks_hash_to_number.contains status.blockhash <;>
            simp [hcont, Option.all]
  · rw [handlePeerDnsdisc_eq]
    cases p2p2 with
    | error e =>
      rw [handlePeerDiscv4_err]
      split
      · rfl
      · split <;> rfl
    | ok hello =>
      cases eth2 with
      | error e2 =>
        rw [handlePeerDiscv4_ethErr]
        rfl
      | ok status =>
        rw [handlePeerDiscv4_ok]
        split
        · rfl
        · cases hcont : state2.blocks_hash_to_number.contains status.blockhash <;>
            simp [hcont, Option.all]
  · rw [handleSessionEstablished_eq]
    split
    · rfl
    · cases hcont : state3.blocks_hash_to_number.contains status3.blockhash <;>
        simp [hcont, Option.all]

/-- C10: the `/nodes` and `/clients` endpoints query the store with the fixed
limit 50, so each response holds at most 50 records. -/
theorem claim10_routes_limit (store : PeerStore) :
    get_nodes store = store.all_peers (some 50) ∧
    (get_nodes store).length ≤ 50 ∧
    get_clients store = (store.all_peers (some 50)).map
      (fun peer => { client_version := peer.client_version }) ∧
    (get_clients store).length ≤ 50 := by
  refine ⟨rfl, ?_, rfl, ?_⟩
  · show (store.peers.take 50).length ≤ 50
    simp only [List.length_take]
    exact min_le_left _ _
  · show ((store.peers.take 50).map _).length ≤ 50
    simp only [List.length_map, List.length_take]
    exact min_le_left _ _

/-- C5: any sequence of insertions into the default recency cache leaves at
most 100 entries; and `put`ting a fresh key into a full (100-entry) cache
yields exactly the new entry followed by the 99 youngest old entries — i.e. it
evicts exactly the least-recently-used entry and keeps every other entry. -/
theorem claim5_lru_capacity_eviction (bs : List Block) (c : LruCache)
    (lp : List (Nat × Nat)) (e : Nat × Nat) (k v : Nat)
    (hcap : c.cap = 100) (hent : c.entries = lp ++ [e]) (hlp : lp.length = 99)
    (hnodup : (keysOf c.entries).Nodup) (hk : c.contains k = false) :
    (applyNewBlocks BlockHashNum.default.blocks_hash_to_number bs).entries.length ≤ 100 ∧
    (c.put k v).entries = (k, v) :: lp ∧
    (c.put k v).contains k = true ∧
    (c.put k v).contains e.1 = false ∧
    (∀ q ∈ lp, (c.put k v).contains q.1 = true) := by
  have hk' : ∀ a ∈ c.entries, a.1 ≠ k := by
    intro a ha heq
    have hcontains : c.contains k = true := by
      unfold LruCache.contains
      rw [List.any_eq_true]
      exact ⟨a, ha, by simp [heq]⟩
    rw [hk] at hcontains
    exact Bool.false_ne_true hcontains
  have hfil : List.filter (fun e' => decide (e'.1 ≠ k)) (lp ++ [e]) = lp ++ [e] := by
    apply List.filter_eq_self.mpr
    intro a ha
    simpa using hk' a (by rw [hent]; exact ha)
  have hput : (c.put k v).entries = (k, v) :: lp := by
    show List.take c.cap ((k, v) :: List.filter (fun e' => decide (e'.1 ≠ k)) c.entries)
      = (k, v) :: lp
    rw [hcap, hent, hfil]
    have h100 : (100 : Nat) = 99 + 1 := rfl
    rw [h100, List.take_succ_cons, ← hlp, List.take_left]
  have hlen : (applyNewBlocks BlockHashNum.default.blocks_hash_to_number bs).entries.length
      ≤ 100 := by
    rw [applyNewBlocks_entries]
    exact foldl_putE_length 100 (bs.map (fun b => (b.hash, b.number))) [] (by simp)
  have he1 : e.1 ∉ List.map Prod.fst lp := by
    rw [hent] at hnodup
    simp only [keysOf, List.map_append, List.map_cons, List.map_nil,
      List.nodup_append] at hnodup
    intro hmem
    exact hnodup.2.2 hmem (by simp)
  have hek : e.1 ≠ k := hk' e (by rw [hent]; simp)
  have hc3 : (c.put k v).contains k = true := by
    unfold LruCache.contains
    rw [hput, List.any_eq_true]
    exact ⟨(k, v), by simp, by simp⟩
  have hc4 : (c.put k v).contains e.1 = false := by
    unfold LruCache.contains
    rw [hput, ← Bool.not_eq_true]
    intro htrue
    rw [List.any_eq_true] at htrue
    obtain ⟨a, ha, hpa⟩ := htrue
    simp only [decide_eq_true_eq] at hpa
    rcases List.mem_cons.mp ha with h1 | h2
    · subst h1
      exact hek hpa.symm
    · exact he1 (hpa ▸ List.mem_map_of_mem Prod.fst h2)
  have hc5 : ∀ q ∈ lp, (c.put k v).contains q.1 = true := by
    intro q hq
    unfold LruCache.contains
    rw [hput, List.any_eq_true]
    exact ⟨q, List.mem_cons_of_mem _ hq, by simp⟩
  exact ⟨hlen, hput, hc3, hc4, hc5⟩

/-- C5 witness: inserting fresh hash 1000 into the concrete full cache keeps
the 99 youngest entries behind the new head and evicts the entry with the
least-recently-used key 99. -/
theorem claim5_witness :
    (cacheFullW.put 1000 1000).entries = (1000, 1000) :: entriesYoungW ∧
    (cacheFullW.put 1000 1000).contains 99 = false := by
  have T := claim5_lru_capacity_eviction [⟨5, 5⟩] cacheFullW entriesYoungW (99, 99) 1000 1000
    rfl rfl rfl (by decide) (by decide)
  exact ⟨T.2.1, T.2.2.2.1⟩

theorem foldl_put_heights (c0 : LruCache) (blk : Nat → Block) (hs : List Nat) :
    List.foldl (fun c h => LruCache.put c (blk h).hash (blk h).number) c0 hs
      = ⟨c0.cap, List.foldl (putE c0.cap) c0.entries
          (hs.map (fun h => ((blk h).hash, (blk h).number)))⟩ := by
  rw [← foldl_put_pairs, List.foldl_map]

theorem initialize_state_ok (p : Provider) (last : Nat) (blk : Nat → Block) (c0 : LruCache)
    (hlat : p.latest = Except.ok last) (hb : ∀ h, p.block h = Except.ok (blk h)) :
    initialize_state p c0 = Except.ok
      (⟨c0.cap, List.foldl (putE c0.cap) c0.entries
        ((List.range' (last - SYNCED_THRESHOLD) (last + 1 - (last - SYNCED_THRESHOLD))).map
          (fun h => ((blk h).hash, (blk h).number)))⟩ : LruCache) := by
  rw [initialize_state, hlat]
  show backfillGo p c0 _ = _
  rw [backfillGo_ok p blk hb, foldl_put_heights]

/-- C7: with the chain at height `last ≥ 100`, a fully-successful backfill
inserts the canonical block of every height in the inclusive range
`last - SYNCED_THRESHOLD ..= last` (in ascending order) into the cache; a
failing height query or a failing block query is surfaced to the caller as
that very error, with no retry. -/
theorem claim7_backfill (p1 p2 p3 : Provider) (c0 : LruCache) (last : Nat)
    (blk : Nat → Block) (e2 e3 : String) (r1 : List Nat) (hf : Nat) (r2 : List Nat)
    (hlast : SYNCED_THRESHOLD ≤ last)
    (h1a : p1.latest = Except.ok last)
    (h1b : ∀ h, p1.block h = Except.ok (blk h))
    (h2 : p2.latest = Except.error e2)
    (h3a : p3.latest = Except.ok last)
    (h3b : List.range' (last - SYNCED_THRESHOLD) (SYNCED_THRESHOLD + 1) = r1 ++ hf :: r2)
    (h3c : ∀ h ∈ r1, ∃ b, p3.block h = Except.ok b)
    (h3d : p3.block hf = Except.error e3) :
    initialize_state p1 c0
      = Except.ok (List.foldl (fun c h => LruCache.put c (blk h).hash (blk h).number) c0
          (List.range' (last - SYNCED_THRESHOLD) (SYNCED_THRESHOLD + 1))) ∧
    initialize_state p2 c0 = Except.error e2 ∧
    initialize_state p3 c0 = Except.error e3 := by
  have hrange : last + 1 - (last - SYNCED_THRESHOLD) = SYNCED_THRESHOLD + 1 := by
    have h100 : SYNCED_THRESHOLD = 100 := rfl
    omega
  refine ⟨?_, ?_, ?_⟩
  · rw [initialize_state, h1a]
    show backfillGo p1 c0
        (List.range' (last - SYNCED_THRESHOLD) (last + 1 - (last - SYNCED_THRESHOLD))) = _
    rw [hrange]
    exact backfillGo_ok p1 blk h1b _ c0
  · rw [initialize_state, h2]
  · rw [initialize_state, h3a]
    show backfillGo p3 c0
        (List.range' (last - SYNCED_THRESHOLD) (last + 1 - (last - SYNCED_THRESHOLD))) = _
    rw [hrange, h3b]
    exact backfillGo_err p3 e3 hf r2 h3d r1 c0 h3c

/-- C7 witness: at height 100, a failing height query and a failing query for
block 0 each surface their error; the all-success run folds the 101 range
blocks into the cache. -/
theorem claim7_witness :
    initialize_state pErrW (LruCache.new 100) = Except.error "ws closed" ∧
    initialize_state pBadW (LruCache.new 100) = Except.error "missing block" ∧
    initialize_state pW (LruCache.new 100)
      = Except.ok (List.foldl (fun c h => LruCache.put c (blkW h).hash (blkW h).number)
          (LruCache.new 100)
          (List.range' (100 - SYNCED_THRESHOLD) (SYNCED_THRESHOLD + 1))) := by
  have T := claim7_backfill pW pErrW pBadW (LruCache.new 100) 100 blkW "ws closed"
    "missing block" [] 0 (List.range' 1 100) (by decide) rfl (fun h => rfl) rfl rfl rfl
    (by simp) rfl
  exact ⟨T.2.1, T.2.2, T.1⟩

/-- C8: re-running the backfill over the same height range against the same
chain state (pairwise-distinct canonical hashes) reproduces exactly the cache
of the first run — in particular the membership set is unchanged. -/
theorem claim8_backfill_idempotent (p : Provider) (last : Nat) (blk : Nat → Block)
    (c1 c2 : LruCache)
    (hlat : p.latest = Except.ok last)
    (hb : ∀ h, p.block h = Except.ok (blk h))
    (hinj : ((List.range' (last - SYNCED_THRESHOLD)
        (last + 1 - (last - SYNCED_THRESHOLD))).map (fun h => (blk h).hash)).Nodup)
    (h1 : initialize_state p BlockHashNum.default.blocks_hash_to_number = Except.ok c1)
    (h2 : initialize_state p c1 = Except.ok c2) :
    c2 = c1 ∧ ∀ x, c2.contains x = c1.contains x := by
  have hkeys : (keysOf ((List.range' (last - SYNCED_THRESHOLD)
      (last + 1 - (last - SYNCED_THRESHOLD))).map
        (fun h => ((blk h).hash, (blk h).number)))).Nodup := by
    simpa [keysOf, List.map_map, Function.comp] using hinj
  have hc1 : c1 = ⟨100, List.foldl (putE 100) []
      ((List.range' (last - SYNCED_THRESHOLD) (last + 1 - (last - SYNCED_THRESHOLD))).map
        (fun h => ((blk h).hash, (blk h).number)))⟩ :=
    Except.ok.inj (h1.symm.trans (initialize_state_ok p last blk _ hlat hb))
  have hc2 : c2 = ⟨c1.cap, List.foldl (putE c1.cap) c1.entries
      ((List.range' (last - SYNCED_THRESHOLD) (last + 1 - (last - SYNCED_THRESHOLD))).map
        (fun h => ((blk h).hash, (blk h).number)))⟩ :=
    Except.ok.inj (h2.symm.trans (initialize_state_ok p last blk c1 hlat hb))
  have hmain : c2 = c1 := by
    rw [hc2, hc1]
    exact congrArg (LruCache.mk 100) (foldl_putE_twice 100 _ hkeys)
  exact ⟨hmain, fun x => by rw [hmain]⟩

set_option maxRecDepth 40000 in
/-- C8 witness: the concrete double backfill of `pW` reproduces the cache of
the single run, e.g. at hash 1050. -/
theorem claim8_witness : c2W = c1W ∧ c2W.contains 1050 = c1W.contains 1050 := by
  have T := claim8_backfill_idempotent pW 100 blkW c1W c2W rfl (fun h => rfl) (by decide)
    rfl rfl
  exact ⟨T.1, T.2 1050⟩

end RethCrawler
